import Mathlib

/-!
Verification development for the `AIPlaysPokemon` repository
(`src/agent/openai_agent.py` and `src/main.py`).

The embedding follows the Python source closely:

* `get_screenshot_base64` (openai_agent.py lines 17-25) is embedded with the
  external PIL operations (`resize`, PNG `save`) passed in as a `PILOracle`
  of pure functions, since PIL is a deterministic external library, while the
  `base64.standard_b64encode` step is implemented concretely.
* The emulator facade (`agent/emulator.py`, an external collaborator that is
  not part of the specified core) is embedded as a record of operations
  (`Emulator`).  Operations that the dispatcher may observe raising a Python
  exception are given type `Except String _`, the error carrying `str(e)`.
* Python `json.loads` (standard library) is embedded by its outcome: a
  `ToolCall` carries `argumentsJson : Except Unit PyValue`, the result of
  `json.loads(tool_call.function.arguments or "\x7b\x7d")`; `.error ()` is a
  `JSONDecodeError`, `.ok v` is the decoded Python value.
* `OpenAIAgent._process_tool_call` (lines 130-210) is embedded as
  `OpenAIAgent.processToolCall`, which also returns the ordered list of
  emulator-facade calls it performed (`EmuEvent`), so that claims about
  "zero emulator calls" are statable.
* `OpenAIAgent.run` (lines 212-301) is embedded as `OpenAIAgent.run` over a
  script of per-iteration inputs (the reasoning-service responses, and
  possible `KeyboardInterrupt` deliveries, modelled at the statement
  boundaries relevant to the claims).  `OpenAIAgent.runStep` is one loop
  body; it additionally returns the ordered list of executed step phases
  (`StepPhase`), used for ordering claims.
-/

/-- One content part of a chat message: a text part or an image-URL part
(openai_agent.py lines 226-241 build these as Python dicts with
`type: text` / `type: image_url`). -/
inductive ChatPart where
  | text (s : String)
  | imageUrl (url : String)
deriving DecidableEq

/-- The `content` field of a chat message: either a plain string or a list of
parts, as in the Python dicts appended to `self.message_history`. -/
inductive MContent where
  | str (s : String)
  | parts (ps : List ChatPart)
deriving DecidableEq

/-- One turn of the transcript: a Python dict `{role, content}`. -/
structure Message where
  role : String
  content : MContent
deriving DecidableEq

/-- A decoded Python/JSON value, as produced by `json.loads`. -/
inductive PyValue where
  | none
  | bool (b : Bool)
  | int (n : Int)
  | str (s : String)
  | list (xs : List PyValue)
  | dict (fields : List (String × PyValue))

/-- Whether a decoded JSON value is a structured record (a JSON object /
Python dict). -/
def PyValue.isRecord : PyValue → Bool
  | .dict _ => true
  | _ => false

/-- First binding of `key` in an association list (JSON objects from
`json.loads` have unique keys, so first = only). -/
def lookupField : List (String × PyValue) → String → Option PyValue
  | [], _ => Option.none
  | (k, v) :: rest, key => if k = key then Option.some v else lookupField rest key

/-- Python `value.get(key, default)`: returns the bound value or the default
on a dict, raises `AttributeError` on any non-dict value (this is exactly
what happens at openai_agent.py line 142 / 181 when `json.loads` returned a
non-object). -/
def pyGet (v : PyValue) (key : String) (dflt : PyValue) : Except String PyValue :=
  match v with
  | .dict fields => .ok ((lookupField fields key).getD dflt)
  | _ => .error "AttributeError"

/-- A joinable element of `", ".join(...)`: a string, or `TypeError`. -/
def strElem : PyValue → Except String String
  | .str s => .ok s
  | _ => .error "TypeError"

/-- Python `", ".join(buttons)` (openai_agent.py line 165): joins a list of
strings; a string iterates over its characters; a dict iterates over its
keys; any other value (or a non-string element) raises `TypeError`. -/
def commaJoin (v : PyValue) : Except String String :=
  match v with
  | .list xs =>
      (xs.mapM strElem).map (String.intercalate ", ")
  | .str s => .ok (String.intercalate ", " (s.data.map String.singleton))
  | .dict fields =>
      .ok (String.intercalate ", " (fields.map Prod.fst))
  | _ => .error "TypeError"

/-- A single quote character, used in the unknown-tool report text. -/
def squote : String := String.singleton (Char.ofNat 39)

/-- A rendered frame.  PIL images are abstract values to the core; only equality of
frames matters to the claims. -/
structure Image where
  width : Nat
  height : Nat
  data : List Nat
deriving DecidableEq

/-- The two PIL operations used by `get_screenshot_base64`:
`Image.resize` and `Image.save(..., format=PNG)` (the latter embedded by the
byte string it writes).  PIL is an external deterministic library, so both
are pure functions. -/
structure PILOracle where
  resize : Image → Nat → Nat → Image
  pngSave : Image → List Nat

/-- The base64 alphabet of `base64.standard_b64encode`. -/
def b64Alphabet : List Char :=
  "ABCDEFGHIJKLMNOPQRSTUVWXYZabcdefghijklmnopqrstuvwxyz0123456789+/".data

/-- Sextet to base64 character. -/
def b64Char (n : Nat) : Char := b64Alphabet.getD n (Char.ofNat 65)

/-- Standard base64 of a byte list, three bytes at a time, with `=` padding
(61 is the code of the padding character). -/
def b64EncodeAux : List Nat → List Char
  | [] => []
  | [a] =>
      [b64Char (a / 4 % 64), b64Char (a % 4 * 16), Char.ofNat 61, Char.ofNat 61]
  | [a, b] =>
      [b64Char (a / 4 % 64), b64Char (a % 4 * 16 + b / 16),
       b64Char (b % 16 * 4), Char.ofNat 61]
  | a :: b :: c :: rest =>
      b64Char (a / 4 % 64) :: b64Char (a % 4 * 16 + b / 16) ::
      b64Char (b % 16 * 4 + c / 64) :: b64Char (c % 64) :: b64EncodeAux rest

/-- `base64.standard_b64encode(...).decode()`. -/
def standard_b64encode (bs : List Nat) : String := String.mk (b64EncodeAux bs)

/-- `get_screenshot_base64(screenshot, upscale)` (openai_agent.py lines
17-25): resize when `upscale > 1`, save as PNG, base64-encode. -/
def get_screenshot_base64 (pil : PILOracle) (screenshot : Image) (upscale : Nat) : String :=
  let s := if upscale > 1 then
      pil.resize screenshot (screenshot.width * upscale) (screenshot.height * upscale)
    else screenshot
  standard_b64encode (pil.pngSave s)

/-- The emulator facade operations consumed by the agent (spec section 6).
Operations whose Python counterpart can raise are `Except String _`-valued,
the error being `str(e)` of the raised exception; `get_location` /
`get_active_dialog` / `get_collision_map` returning the empty string models
the falsy `None`-or-empty results that the Python `or` defaults replace. -/
structure Emulator where
  pressButtons : PyValue → PyValue → Except String String
  getStateFromMemory : Except String String
  getLocation : Except String String
  getActiveDialog : Except String String
  getCollisionMap : Except String String
  findPath : PyValue → PyValue → String × List String
  getScreenshot : Image

/-- One call made against the emulator facade, recorded in call order. -/
inductive EmuEvent where
  | evPressButtons (buttons wait : PyValue)
  | evGetStateFromMemory
  | evGetLocation
  | evGetActiveDialog
  | evGetCollisionMap
  | evGetScreenshot
  | evFindPath (row col : PyValue)

/-- Whether an emulator call mutates emulator state: only button presses do;
the path solver and the state reads are observations. -/
def EmuEvent.isMutation : EmuEvent → Bool
  | .evPressButtons _ _ => true
  | _ => false

/-- One tool call from the reasoning-service response.  `argumentsJson` is
the outcome of `json.loads(tool_call.function.arguments or "\x7b\x7d")`:
`.error ()` for a `JSONDecodeError`, `.ok v` for the decoded value. -/
structure ToolCall where
  name : String
  argumentsJson : Except Unit PyValue

/-- Lines 134-137: the decode-failure handler substitutes the empty dict for
the arguments; a successful decode is used as-is. -/
def resolvedArguments (aj : Except Unit PyValue) : PyValue :=
  match aj with
  | .error _ => .dict []
  | .ok v => v

namespace OpenAIAgent

/-- The `press_buttons` branch after the two `arguments.get` calls succeeded
(openai_agent.py lines 146-178).  Everything inside the `try` block is
caught by `except Exception`, which returns the
`Error processing button press:` report; hence the result is always `.ok`.
The second component lists the emulator calls made, in order. -/
def pressButtonsBranch (emu : Emulator) (buttons wait : PyValue) :
    Except String String × List EmuEvent :=
  match emu.pressButtons buttons wait with
  | .error e =>
      (.ok ("Error processing button press: " ++ e), [.evPressButtons buttons wait])
  | .ok _result =>
    match emu.getStateFromMemory with
    | .error e =>
        (.ok ("Error processing button press: " ++ e),
         [.evPressButtons buttons wait, .evGetStateFromMemory])
    | .ok memoryInfo =>
      match emu.getLocation with
      | .error e =>
          (.ok ("Error processing button press: " ++ e),
           [.evPressButtons buttons wait, .evGetStateFromMemory, .evGetLocation])
      | .ok loc =>
        match emu.getActiveDialog with
        | .error e =>
            (.ok ("Error processing button press: " ++ e),
             [.evPressButtons buttons wait, .evGetStateFromMemory, .evGetLocation,
              .evGetActiveDialog])
        | .ok dialog =>
          match emu.getCollisionMap with
          | .error e =>
              (.ok ("Error processing button press: " ++ e),
               [.evPressButtons buttons wait, .evGetStateFromMemory, .evGetLocation,
                .evGetActiveDialog, .evGetCollisionMap])
          | .ok _collisionMap =>
            let events : List EmuEvent :=
              [.evPressButtons buttons wait, .evGetStateFromMemory, .evGetLocation,
               .evGetActiveDialog, .evGetCollisionMap]
            match commaJoin buttons with
            | .error e => (.ok ("Error processing button press: " ++ e), events)
            | .ok joined =>
              let location := if loc = "" then "Unknown location" else loc
              let responseParts :=
                ["Action: Pressed buttons: " ++ joined, "Location: " ++ location]
                ++ (if dialog = "" then [] else ["Dialog: " ++ dialog])
                ++ ["Game State:\n" ++ memoryInfo]
              (.ok (String.intercalate "\n" responseParts), events)

/-- Replaying a solved path: `for direction in path:
self.emulator.press_buttons([direction], True)` (lines 187-188).  These
presses are not inside a `try`, so an emulator exception propagates. -/
def pressPath (emu : Emulator) : List String → Except String Unit × List EmuEvent
  | [] => (.ok (), [])
  | d :: rest =>
    match emu.pressButtons (.list [.str d]) (.bool true) with
    | .error e => (.error e, [.evPressButtons (.list [.str d]) (.bool true)])
    | .ok _ =>
      let (r, evs) := pressPath emu rest
      (r, .evPressButtons (.list [.str d]) (.bool true) :: evs)

/-- The `navigate_to` branch after the two `arguments.get` calls succeeded
(openai_agent.py lines 180-207): solve, replay the path if nonempty, then
take a screenshot, read memory state and the collision map (none of these in
a `try`, so their exceptions propagate), and compose the report. -/
def navigateBranch (emu : Emulator) (pil : PILOracle) (row col : PyValue) :
    Except String String × List EmuEvent :=
  let (status, path) := emu.findPath row col
  match pressPath emu path with
  | (.error e, evs) => (.error e, .evFindPath row col :: evs)
  | (.ok _, evs) =>
    let result :=
      if path = [] then "Navigation failed: " ++ status
      else "Navigation successful: followed path with " ++ toString path.length
           ++ " steps. Status: " ++ status
    let _unused := get_screenshot_base64 pil emu.getScreenshot 2
    match emu.getStateFromMemory with
    | .error e =>
        (.error e, .evFindPath row col :: evs ++ [.evGetScreenshot, .evGetStateFromMemory])
    | .ok memoryInfo =>
      match emu.getCollisionMap with
      | .error e =>
          (.error e,
           .evFindPath row col :: evs
             ++ [.evGetScreenshot, .evGetStateFromMemory, .evGetCollisionMap])
      | .ok _collisionMap =>
          (.ok ("Navigation result: " ++ result
                ++ "\n\nGame state after navigation:\n" ++ memoryInfo),
           .evFindPath row col :: evs
             ++ [.evGetScreenshot, .evGetStateFromMemory, .evGetCollisionMap])

/-- `OpenAIAgent._process_tool_call` (openai_agent.py lines 130-210).
The first component is the returned report (`.error e` models a Python
exception propagating out of the method); the second lists the emulator
calls performed. -/
def processToolCall (emu : Emulator) (pil : PILOracle) (tc : ToolCall) :
    Except String String × List EmuEvent :=
  let arguments := resolvedArguments tc.argumentsJson
  if tc.name = "press_buttons" then
    match pyGet arguments "buttons" (.list []), pyGet arguments "wait" (.bool true) with
    | .ok buttons, .ok wait => pressButtonsBranch emu buttons wait
    | .error e, _ => (.error e, [])
    | _, .error e => (.error e, [])
  else if tc.name = "navigate_to" then
    match pyGet arguments "row" .none, pyGet arguments "col" .none with
    | .ok row, .ok col => navigateBranch emu pil row col
    | .error e, _ => (.error e, [])
    | _, .error e => (.error e, [])
  else
    (.ok ("Error: Unknown tool " ++ squote ++ tc.name ++ squote), [])

end OpenAIAgent

/-- The assistant message of one `chat.completions` response:
`message.content` (a string or `None`; `None` and `""` are both falsy for
the `or ""` at line 276) and `message.tool_calls or []`. -/
structure ServiceMsg where
  content : Option String
  toolCalls : List ToolCall

/-- Python `message.content or ""`. -/
def pyOrEmpty (c : Option String) : String := c.getD ""

/-- The mutable agent state relevant to the claims: `self.message_history`,
`self.running` and `self.max_history`. -/
structure AgentState where
  history : List Message
  running : Bool
  maxHistory : Nat
deriving DecidableEq

/-- The initial `self.message_history` (openai_agent.py lines 106-108). -/
def initialHistory : List Message :=
  [⟨"user", .str "You may now begin playing."⟩]

/-- The state set up by `OpenAIAgent.__init__` (lines 100-112). -/
def initAgent (maxHistory : Nat) : AgentState :=
  ⟨initialHistory, true, maxHistory⟩

/-- The phases of one iteration of the step loop, in execution order. -/
inductive StepPhase where
  | observationCapture
  | serviceRequest
  | transcriptAppend
  | toolDispatch (name : String)
  | compaction
deriving DecidableEq

namespace OpenAIAgent

/-- The two parts of the per-step user observation turn
(openai_agent.py lines 226-241). -/
def observationParts (memoryInfo b64 : String) : List ChatPart :=
  [.text ("Here is the current game state from memory and a screenshot of the game screen. "
          ++ "Use the tools to decide what to do next.\n\nGAME STATE:\n" ++ memoryInfo),
   .imageUrl ("data:image/png;base64," ++ b64)]

/-- The single replacement turn built by `summarize_history`
(openai_agent.py lines 329-354): recap label + summary text, a freshly
captured frame, and the continuation invitation. -/
def summaryTurn (maxHistory : Nat) (summaryText b64 : String) : Message :=
  ⟨"user", .parts [
    .text ("CONVERSATION HISTORY SUMMARY (representing " ++ toString maxHistory
           ++ " previous messages): " ++ summaryText),
    .imageUrl ("data:image/png;base64," ++ b64),
    .text ("You were just asked to summarize your playthrough so far, which is the summary you see above. "
           ++ "You may now continue playing by selecting your next action.")]⟩

/-- Dispatch of every returned tool call, in order (lines 281-282); the
reports are discarded (`_ = ...`), but a propagating exception aborts the
loop body. -/
def dispatchAll (emu : Emulator) (pil : PILOracle) : List ToolCall → Except String Unit
  | [] => .ok ()
  | tc :: rest =>
    match (processToolCall emu pil tc).fst with
    | .error e => .error e
    | .ok _ => dispatchAll emu pil rest

/-- The assistant turn appended at line 276. -/
def assistantTurn (svc : ServiceMsg) : Message :=
  ⟨"assistant", .str (pyOrEmpty svc.content)⟩

/-- The history after the two appends of lines 275-276: the user observation
turn and the assistant response turn. -/
def appendedHistory (st : AgentState) (memoryInfo b64 : String) (msg : ServiceMsg) :
    List Message :=
  st.history ++ [⟨"user", .parts (observationParts memoryInfo b64)⟩, assistantTurn msg]

/-- The phases a step executes up to (and excluding) the compaction check,
in the order the source executes them (lines 219-282): observation capture,
the reasoning-service request, the two history appends, then one dispatch
per returned tool call. -/
def stepTrace (msg : ServiceMsg) : List StepPhase :=
  [StepPhase.observationCapture, StepPhase.serviceRequest, StepPhase.transcriptAppend]
    ++ msg.toolCalls.map (fun tc => StepPhase.toolDispatch tc.name)

/-- One body of the `while` loop of `OpenAIAgent.run` (lines 219-289),
without the `KeyboardInterrupt` handler: capture the observation, issue the
request (its outcome `svc` is an input; `.error` is a raised
`ServiceCallFailure`), append the user and assistant turns, dispatch the
tool calls, and run `summarize_history` (lines 303-356, its service outcome
`summarizeResp` is an input) when the appended history has reached
`max_history` (line 285).  Also returns the executed `StepPhase`s in
order. -/
def runStep (emu : Emulator) (pil : PILOracle) (svc : Except String ServiceMsg)
    (summarizeResp : Except String String) (st : AgentState) :
    Except String (AgentState × List StepPhase) :=
  match emu.getStateFromMemory with
  | .error e => .error e
  | .ok memoryInfo =>
    match svc with
    | .error e => .error e
    | .ok msg =>
      match dispatchAll emu pil msg.toolCalls with
      | .error e => .error e
      | .ok _ =>
        if st.maxHistory ≤ (appendedHistory st memoryInfo
            (get_screenshot_base64 pil emu.getScreenshot 2) msg).length then
          match summarizeResp with
          | .error e => .error e
          | .ok summaryText =>
            .ok (⟨[summaryTurn st.maxHistory summaryText
                    (get_screenshot_base64 pil emu.getScreenshot 2)],
                  st.running, st.maxHistory⟩,
                 stepTrace msg ++ [StepPhase.compaction])
        else
          .ok (⟨appendedHistory st memoryInfo
                  (get_screenshot_base64 pil emu.getScreenshot 2) msg,
                st.running, st.maxHistory⟩,
               stepTrace msg)

/-- The per-step user observation turn, used when modelling an interrupt
that lands after the history appends. -/
def observeTurn (emu : Emulator) (pil : PILOracle) : Except String Message :=
  match emu.getStateFromMemory with
  | .error e => .error e
  | .ok memoryInfo =>
      .ok ⟨"user", .parts (observationParts memoryInfo
            (get_screenshot_base64 pil emu.getScreenshot 2))⟩

/-- What happens in one loop iteration: either the reasoning service answers
(`normal`, with the summarization-request outcome alongside in case
compaction runs), or the operator delivers a `KeyboardInterrupt`, modelled
at the two statement boundaries that matter to the claims: before the
history appends (`interruptEarly`) or after them (`interruptLate`). -/
inductive StepInput where
  | interruptEarly
  | interruptLate (svc : ServiceMsg)
  | normal (svc : Except String ServiceMsg) (summarizeResp : Except String String)

/-- The outcome of one `OpenAIAgent.run` invocation: the final state, the
returned `steps_completed`, whether `self.emulator.stop()` ran (lines
298-299), the history lengths observed at the start of each loop iteration
that was entered, and whether a `KeyboardInterrupt` was handled. -/
structure RunResult where
  state : AgentState
  stepsCompleted : Nat
  emulatorStopped : Bool
  startLengths : List Nat
  interrupted : Bool
deriving DecidableEq

/-- The `while self.running and steps_completed < num_steps` loop of
`OpenAIAgent.run` (lines 217-301), driven by a `script` giving each
input of each iteration.  The fuel argument only bounds recursion; `run` supplies
`numSteps + 1`, which is enough for every reachable exit (each iteration
either increments `steps_completed` or clears `running`). -/
def runLoop (emu : Emulator) (pil : PILOracle) (script : Nat → StepInput)
    (numSteps : Nat) : Nat → Nat → AgentState → Except String RunResult
  | 0, done, st => .ok ⟨st, done, !st.running, [], false⟩
  | fuel + 1, done, st =>
    if st.running ∧ done < numSteps then
      match script done with
      | .interruptEarly =>
        match runLoop emu pil script numSteps fuel done ⟨st.history, false, st.maxHistory⟩ with
        | .error e => .error e
        | .ok r => .ok ⟨r.state, r.stepsCompleted, r.emulatorStopped,
                        st.history.length :: r.startLengths, true⟩
      | .interruptLate svcMsg =>
        match observeTurn emu pil with
        | .error e => .error e
        | .ok userTurn =>
          match runLoop emu pil script numSteps fuel done
              ⟨st.history ++ [userTurn, assistantTurn svcMsg], false, st.maxHistory⟩ with
          | .error e => .error e
          | .ok r => .ok ⟨r.state, r.stepsCompleted, r.emulatorStopped,
                          st.history.length :: r.startLengths, true⟩
      | .normal svcE summE =>
        match runStep emu pil svcE summE st with
        | .error e => .error e
        | .ok (st', _) =>
          match runLoop emu pil script numSteps fuel (done + 1) st' with
          | .error e => .error e
          | .ok r => .ok ⟨r.state, r.stepsCompleted, r.emulatorStopped,
                          st.history.length :: r.startLengths, r.interrupted⟩
    else
      .ok ⟨st, done, !st.running, [], false⟩

/-- `OpenAIAgent.run(num_steps)` (lines 212-301): run the step loop from
the given state; `.error e` models an exception re-raised at line 296. -/
def run (emu : Emulator) (pil : PILOracle) (script : Nat → StepInput)
    (numSteps : Nat) (st : AgentState) : Except String RunResult :=
  runLoop emu pil script numSteps (numSteps + 1) 0 st

end OpenAIAgent

/-- A concrete emulator used in witnesses: every operation succeeds, the
location is fixed, there is no dialog, and the path solver reports
`blocked` with no path. -/
def emuOk : Emulator :=
  ⟨fun _ _ => .ok "ok", .ok "STATE", .ok "PALLET TOWN", .ok "", .ok "MAP",
   fun _ _ => ("blocked", []), ⟨2, 2, [1, 2, 3]⟩⟩

/-- A concrete emulator whose `press_buttons` raises. -/
def emuPressFail : Emulator :=
  ⟨fun _ _ => .error "boom", .ok "STATE", .ok "PALLET TOWN", .ok "", .ok "MAP",
   fun _ _ => ("blocked", []), ⟨2, 2, [1, 2, 3]⟩⟩

/-- A concrete PIL stand-in used in witnesses. -/
def pilId : PILOracle :=
  ⟨fun img w h => ⟨w, h, img.data⟩, fun img => img.data⟩

/-- A concrete service response carrying one `press_buttons` tool call,
used in the counterexample for C7. -/
def svcPress : ServiceMsg :=
  ⟨Option.some "pressing a", [⟨"press_buttons", .ok (.dict [("buttons", .list [.str "a"])])⟩]⟩

/-- A concrete service response with text and no tool calls. -/
def svcHi : ServiceMsg := ⟨Option.some "hi", []⟩

/-- The user observation turn produced by a step against `emuOk` and
`pilId` (whose screenshot encodes to base64 `AQID`). -/
def obsTurnOk : Message := ⟨"user", .parts (OpenAIAgent.observationParts "STATE" "AQID")⟩

/-- The phase trace of a step without tool calls and without compaction. -/
def trPlain : List StepPhase :=
  [StepPhase.observationCapture, StepPhase.serviceRequest, StepPhase.transcriptAppend]

/-- The message of the first exception raised inside the `try` block of the
`press_buttons` branch by the emulator-facade calls, in the order the
source performs them (press, memory state, location, dialog, collision
map), or `none` when none of them raises. -/
def pressFirstError (emu : Emulator) (buttons wait : PyValue) : Option String :=
  match emu.pressButtons buttons wait with
  | .error e => Option.some e
  | .ok _ =>
    match emu.getStateFromMemory with
    | .error e => Option.some e
    | .ok _ =>
      match emu.getLocation with
      | .error e => Option.some e
      | .ok _ =>
        match emu.getActiveDialog with
        | .error e => Option.some e
        | .ok _ =>
          match emu.getCollisionMap with
          | .error e => Option.some e
          | .ok _ => Option.none

theorem appendedHistory_length (st : AgentState) (memoryInfo b64 : String)
    (msg : ServiceMsg) :
    (OpenAIAgent.appendedHistory st memoryInfo b64 msg).length = st.history.length + 2 := by
  simp [OpenAIAgent.appendedHistory]

/-- Case analysis of one successful loop body: the observation read and the
service call must have succeeded, all tool calls dispatched without a
propagating exception, and the step either compacted (history has reached
the threshold) or plainly appended the two turns. -/
theorem runStep_cases (emu : Emulator) (pil : PILOracle) (svc : Except String ServiceMsg)
    (summ : Except String String) (st st' : AgentState) (tr : List StepPhase)
    (h : OpenAIAgent.runStep emu pil svc summ st = .ok (st', tr)) :
    ∃ msg memoryInfo, svc = .ok msg ∧ emu.getStateFromMemory = .ok memoryInfo ∧
      OpenAIAgent.dispatchAll emu pil msg.toolCalls = .ok () ∧
      ((st.maxHistory ≤ st.history.length + 2 ∧
        (∃ summText, summ = .ok summText ∧
          st' = ⟨[OpenAIAgent.summaryTurn st.maxHistory summText
                    (get_screenshot_base64 pil emu.getScreenshot 2)],
                 st.running, st.maxHistory⟩ ∧
          tr = OpenAIAgent.stepTrace msg ++ [StepPhase.compaction])) ∨
       (st.history.length + 2 < st.maxHistory ∧
        st' = ⟨OpenAIAgent.appendedHistory st memoryInfo
                 (get_screenshot_base64 pil emu.getScreenshot 2) msg,
               st.running, st.maxHistory⟩ ∧
        tr = OpenAIAgent.stepTrace msg)) := by
  unfold OpenAIAgent.runStep at h
  split at h
  · simp at h
  rename_i memoryInfo hm
  split at h
  · simp at h
  rename_i msg
  split at h
  · simp at h
  rename_i u hd
  cases u
  rw [appendedHistory_length] at h
  split at h
  · rename_i hlen
    split at h
    · simp at h
    rename_i summText
    rw [Except.ok.injEq, Prod.mk.injEq] at h
    exact ⟨msg, memoryInfo, rfl, hm, hd,
      Or.inl ⟨hlen, summText, rfl, h.1.symm, h.2.symm⟩⟩
  · rename_i hlen
    rw [Except.ok.injEq, Prod.mk.injEq] at h
    exact ⟨msg, memoryInfo, rfl, hm, hd,
      Or.inr ⟨by omega, h.1.symm, h.2.symm⟩⟩

/-- C1: for every step of `OpenAIAgent.run` whose ending transcript length
(the length after the two appends) is at least `max_history`,
`summarize_history` runs before the step returns, and the transcript seen
by the next step is exactly one user turn whose parts are, in order: a text
part labeling the recap as representing `max_history` previous messages
plus the summary text, an image part with a freshly captured frame, and a
text part inviting continued play (see `OpenAIAgent.summaryTurn`). -/
theorem c1_compaction_condenses_history (emu : Emulator) (pil : PILOracle)
    (svc : Except String ServiceMsg) (summ : Except String String)
    (st st' : AgentState) (tr : List StepPhase)
    (h : OpenAIAgent.runStep emu pil svc summ st = .ok (st', tr))
    (hlen : st.maxHistory ≤ st.history.length + 2) :
    StepPhase.compaction ∈ tr ∧
    ∃ summText, summ = .ok summText ∧
      st'.history = [OpenAIAgent.summaryTurn st.maxHistory summText
        (get_screenshot_base64 pil emu.getScreenshot 2)] ∧
      st'.history.length = 1 := by
  obtain ⟨msg, memoryInfo, hsvc, hm, hd, hcase⟩ :=
    runStep_cases emu pil svc summ st st' tr h
  rcases hcase with ⟨_, summText, hs, hst, htr⟩ | ⟨hlt, _, _⟩
  · subst hst htr
    exact ⟨by simp, summText, hs, by simp, by simp⟩
  · omega

/-- C2: every successful step that does not trigger compaction grows
`message_history` by exactly 2 turns: the user observation turn and the
assistant response turn (text only); no tool-call record or tool report is
appended (the final history is exactly the old history plus those two
turns). -/
theorem c2_step_appends_two_turns (emu : Emulator) (pil : PILOracle)
    (svc : Except String ServiceMsg) (summ : Except String String)
    (st st' : AgentState) (tr : List StepPhase)
    (h : OpenAIAgent.runStep emu pil svc summ st = .ok (st', tr))
    (hlen : st.history.length + 2 < st.maxHistory) :
    ∃ msg memoryInfo, svc = .ok msg ∧ emu.getStateFromMemory = .ok memoryInfo ∧
      st'.history = st.history
        ++ [⟨"user", .parts (OpenAIAgent.observationParts memoryInfo
              (get_screenshot_base64 pil emu.getScreenshot 2))⟩,
            ⟨"assistant", .str (pyOrEmpty msg.content)⟩] ∧
      st'.history.length = st.history.length + 2 := by
  obtain ⟨msg, memoryInfo, hsvc, hm, hd, hcase⟩ :=
    runStep_cases emu pil svc summ st st' tr h
  rcases hcase with ⟨hge, _⟩ | ⟨hlt, hst, htr⟩
  · omega
  · subst hst
    exact ⟨msg, memoryInfo, hsvc, hm,
      by simp [OpenAIAgent.appendedHistory, OpenAIAgent.assistantTurn],
      by simp [OpenAIAgent.appendedHistory]⟩

/-- C7 counterexample: the claim says tool dispatch occurs before the
transcript append, but in the source the two history appends (lines
275-276) precede the dispatch loop (lines 281-282).  On a concrete step
with one tool call, the executed phase trace places `transcriptAppend`
strictly before the `toolDispatch`. -/
theorem c7_counterexample :
    (OpenAIAgent.runStep emuOk pilId (.ok svcPress) (.ok "sum") (initAgent 30)).map Prod.snd
      = .ok [StepPhase.observationCapture, StepPhase.serviceRequest,
             StepPhase.transcriptAppend, StepPhase.toolDispatch "press_buttons"] ∧
    List.indexOf StepPhase.transcriptAppend
        [StepPhase.observationCapture, StepPhase.serviceRequest,
         StepPhase.transcriptAppend, StepPhase.toolDispatch "press_buttons"]
      < List.indexOf (StepPhase.toolDispatch "press_buttons")
        [StepPhase.observationCapture, StepPhase.serviceRequest,
         StepPhase.transcriptAppend, StepPhase.toolDispatch "press_buttons"] := by
  exact ⟨rfl, by decide⟩

/-- C7 (amended): within every single step the phases execute strictly in
the order observation capture, then the reasoning-service request, then the
transcript append of the two new turns, then tool dispatch of every
returned tool call (in order), then optional compaction; in particular the
transcript append occurs before tool dispatch, not after it. -/
theorem c7_step_phase_order (emu : Emulator) (pil : PILOracle)
    (svc : Except String ServiceMsg) (summ : Except String String)
    (st st' : AgentState) (tr : List StepPhase)
    (h : OpenAIAgent.runStep emu pil svc summ st = .ok (st', tr)) :
    ∃ msg rest, svc = .ok msg ∧
      tr = [StepPhase.observationCapture, StepPhase.serviceRequest,
            StepPhase.transcriptAppend]
           ++ msg.toolCalls.map (fun tc => StepPhase.toolDispatch tc.name)
           ++ rest ∧
      (rest = [] ∨ rest = [StepPhase.compaction]) := by
  obtain ⟨msg, memoryInfo, hsvc, hm, hd, hcase⟩ :=
    runStep_cases emu pil svc summ st st' tr h
  rcases hcase with ⟨_, _, _, _, htr⟩ | ⟨_, _, htr⟩
  · exact ⟨msg, [StepPhase.compaction], hsvc,
      by simp [htr, OpenAIAgent.stepTrace], Or.inr rfl⟩
  · exact ⟨msg, [], hsvc, by simp [htr, OpenAIAgent.stepTrace], Or.inl rfl⟩

theorem pressButtonsBranch_ok (emu : Emulator) (buttons wait : PyValue) :
    ∃ report, (OpenAIAgent.pressButtonsBranch emu buttons wait).fst = .ok report := by
  unfold OpenAIAgent.pressButtonsBranch
  cases h1 : emu.pressButtons buttons wait
  · exact ⟨_, rfl⟩
  cases h2 : emu.getStateFromMemory
  · exact ⟨_, rfl⟩
  cases h3 : emu.getLocation
  · exact ⟨_, rfl⟩
  cases h4 : emu.getActiveDialog
  · exact ⟨_, rfl⟩
  cases h5 : emu.getCollisionMap
  · exact ⟨_, rfl⟩
  cases h6 : commaJoin buttons
  · exact ⟨_, rfl⟩
  · exact ⟨_, rfl⟩

theorem pressButtonsBranch_error (emu : Emulator) (buttons wait : PyValue) (e : String)
    (herr : pressFirstError emu buttons wait = Option.some e) :
    (OpenAIAgent.pressButtonsBranch emu buttons wait).fst
      = .ok ("Error processing button press: " ++ e) := by
  unfold pressFirstError at herr
  unfold OpenAIAgent.pressButtonsBranch
  cases h1 : emu.pressButtons buttons wait with
  | error e1 =>
    simp only [h1] at herr
    cases herr
    rfl
  | ok r1 =>
    simp only [h1] at herr
    cases h2 : emu.getStateFromMemory with
    | error e2 =>
      simp only [h2] at herr
      cases herr
      rfl
    | ok r2 =>
      simp only [h2] at herr
      cases h3 : emu.getLocation with
      | error e3 =>
        simp only [h3] at herr
        cases herr
        rfl
      | ok r3 =>
        simp only [h3] at herr
        cases h4 : emu.getActiveDialog with
        | error e4 =>
          simp only [h4] at herr
          cases herr
          rfl
        | ok r4 =>
          simp only [h4] at herr
          cases h5 : emu.getCollisionMap with
          | error e5 =>
            simp only [h5] at herr
            cases herr
            rfl
          | ok r5 =>
            simp only [h5] at herr
            cases herr

theorem processToolCall_press (emu : Emulator) (pil : PILOracle)
    (aj : Except Unit PyValue) (buttons wait : PyValue)
    (hb : pyGet (resolvedArguments aj) "buttons" (.list []) = .ok buttons)
    (hw : pyGet (resolvedArguments aj) "wait" (.bool true) = .ok wait) :
    OpenAIAgent.processToolCall emu pil ⟨"press_buttons", aj⟩
      = OpenAIAgent.pressButtonsBranch emu buttons wait := by
  unfold OpenAIAgent.processToolCall
  simp only [hb, hw]
  rfl

theorem processToolCall_navigate (emu : Emulator) (pil : PILOracle)
    (fields : List (String × PyValue)) :
    OpenAIAgent.processToolCall emu pil ⟨"navigate_to", .ok (.dict fields)⟩
      = OpenAIAgent.navigateBranch emu pil ((lookupField fields "row").getD .none)
          ((lookupField fields "col").getD .none) := rfl

theorem navigateBranch_noPath (emu : Emulator) (pil : PILOracle) (row col : PyValue)
    (status memoryInfo cm : String)
    (hpath : emu.findPath row col = (status, []))
    (hmem : emu.getStateFromMemory = .ok memoryInfo)
    (hcoll : emu.getCollisionMap = .ok cm) :
    OpenAIAgent.navigateBranch emu pil row col
      = (.ok ("Navigation result: " ++ ("Navigation failed: " ++ status)
              ++ "\n\nGame state after navigation:\n" ++ memoryInfo),
         [.evFindPath row col, .evGetScreenshot, .evGetStateFromMemory,
          .evGetCollisionMap]) := by
  unfold OpenAIAgent.navigateBranch
  simp only [hpath, OpenAIAgent.pressPath, hmem, hcoll]
  rfl

/-- C4 counterexample: the claim asserts that `_process_tool_call` never
raises for any raw argument text that fails to parse as a structured
record.  But only `json.JSONDecodeError` is caught (line 135): the raw text
`[]` parses as valid JSON to a list, which is not a record
(`PyValue.isRecord` is `false`), and then `arguments.get` at line 142
raises `AttributeError`, which propagates out of the dispatcher. -/
theorem c4_counterexample :
    PyValue.isRecord (PyValue.list []) = false ∧
    (OpenAIAgent.processToolCall emuOk pilId
        ⟨"press_buttons", .ok (.list [])⟩).fst = .error "AttributeError" :=
  ⟨rfl, rfl⟩

/-- C4 (amended): for every `press_buttons` tool call whose raw argument
text fails to parse as JSON at all (a `json.JSONDecodeError`, embedded as
`argumentsJson = .error ()`), `_process_tool_call` does not raise: it
substitutes the empty argument record and proceeds with an empty button
sequence and `wait=true` (always returning a report).  When the raw text
parses as valid JSON that is not a record, however, the dispatcher raises
`AttributeError` (see the counterexample). -/
theorem c4_decode_failure_defaults (emu : Emulator) (pil : PILOracle) (tc : ToolCall)
    (hname : tc.name = "press_buttons") (hdecode : tc.argumentsJson = .error ()) :
    OpenAIAgent.processToolCall emu pil tc
      = OpenAIAgent.pressButtonsBranch emu (.list []) (.bool true) ∧
    ∃ report, (OpenAIAgent.processToolCall emu pil tc).fst = .ok report := by
  obtain ⟨name, aj⟩ := tc
  cases hname
  cases hdecode
  have h : OpenAIAgent.processToolCall emu pil ⟨"press_buttons", .error ()⟩
      = OpenAIAgent.pressButtonsBranch emu (.list []) (.bool true) := rfl
  exact ⟨h, by rw [h]; exact pressButtonsBranch_ok emu _ _⟩

/-- C4 witness: the amended theorem applied to a `press_buttons` call with
undecodable arguments against a concrete emulator. -/
theorem c4_witness :
    (ToolCall.mk "press_buttons" (.error ())).name = "press_buttons" ∧
    (ToolCall.mk "press_buttons" (.error ())).argumentsJson = .error () ∧
    (OpenAIAgent.processToolCall emuOk pilId ⟨"press_buttons", .error ()⟩
      = OpenAIAgent.pressButtonsBranch emuOk (.list []) (.bool true) ∧
    ∃ report, (OpenAIAgent.processToolCall emuOk pilId
        ⟨"press_buttons", .error ()⟩).fst = .ok report) :=
  ⟨rfl, rfl, c4_decode_failure_defaults emuOk pilId ⟨"press_buttons", .error ()⟩ rfl rfl⟩

/-- C5: for every tool call whose name is neither `press_buttons` nor
`navigate_to`, `_process_tool_call` performs zero emulator-facade calls and
returns a non-empty error report naming the unknown tool
(line 210: `Error: Unknown tool '<name>'`). -/
theorem c5_unknown_tool (emu : Emulator) (pil : PILOracle) (tc : ToolCall)
    (h1 : tc.name ≠ "press_buttons") (h2 : tc.name ≠ "navigate_to") :
    OpenAIAgent.processToolCall emu pil tc
      = (.ok ("Error: Unknown tool " ++ squote ++ tc.name ++ squote), []) ∧
    ("Error: Unknown tool " ++ squote ++ tc.name ++ squote) ≠ "" := by
  constructor
  · unfold OpenAIAgent.processToolCall
    rw [if_neg h1, if_neg h2]
  · intro hcontra
    have hlen : ("Error: Unknown tool " ++ squote ++ tc.name ++ squote).length = 0 := by
      rw [hcontra]
      rfl
    rw [String.length_append, String.length_append, String.length_append] at hlen
    have h20 : ("Error: Unknown tool ").length = 20 := rfl
    have h1q : squote.length = 1 := rfl
    omega

/-- C5 witness: dispatch of a concrete unrecognized tool name. -/
theorem c5_witness :
    (ToolCall.mk "use_item" (.ok (.dict []))).name ≠ "press_buttons" ∧
    (ToolCall.mk "use_item" (.ok (.dict []))).name ≠ "navigate_to" ∧
    (OpenAIAgent.processToolCall emuOk pilId ⟨"use_item", .ok (.dict [])⟩
      = (.ok ("Error: Unknown tool " ++ squote ++ (ToolCall.mk "use_item" (.ok (.dict []))).name ++ squote), []) ∧
    ("Error: Unknown tool " ++ squote ++ (ToolCall.mk "use_item" (.ok (.dict []))).name ++ squote) ≠ "") :=
  ⟨by decide, by decide,
   c5_unknown_tool emuOk pilId ⟨"use_item", .ok (.dict [])⟩ (by decide) (by decide)⟩

/-- C6: for every `navigate_to` tool call for which the path solver returns
no path, the dispatcher issues zero `press_buttons` calls and performs zero
emulator mutations (the remaining facade calls are the solver query and
reads), and the report indicates failure, containing the text
`Navigation failed: <status>` with the solver status token. -/
theorem c6_navigation_failure (emu : Emulator) (pil : PILOracle)
    (fields : List (String × PyValue)) (status memoryInfo cm : String)
    (hpath : emu.findPath ((lookupField fields "row").getD .none)
        ((lookupField fields "col").getD .none) = (status, []))
    (hmem : emu.getStateFromMemory = .ok memoryInfo)
    (hcoll : emu.getCollisionMap = .ok cm) :
    OpenAIAgent.processToolCall emu pil ⟨"navigate_to", .ok (.dict fields)⟩
      = (.ok ("Navigation result: " ++ ("Navigation failed: " ++ status)
              ++ "\n\nGame state after navigation:\n" ++ memoryInfo),
         [.evFindPath ((lookupField fields "row").getD .none)
            ((lookupField fields "col").getD .none),
          .evGetScreenshot, .evGetStateFromMemory, .evGetCollisionMap]) ∧
    (OpenAIAgent.processToolCall emu pil ⟨"navigate_to", .ok (.dict fields)⟩).snd.all
      (fun ev => !ev.isMutation) = true ∧
    ∃ pre post,
      ("Navigation result: " ++ ("Navigation failed: " ++ status)
        ++ "\n\nGame state after navigation:\n" ++ memoryInfo)
      = pre ++ ("Navigation failed: " ++ status) ++ post := by
  have h := processToolCall_navigate emu pil fields
  have hn := navigateBranch_noPath emu pil ((lookupField fields "row").getD .none)
    ((lookupField fields "col").getD .none) status memoryInfo cm hpath hmem hcoll
  rw [h, hn]
  refine ⟨rfl, rfl, "Navigation result: ",
    "\n\nGame state after navigation:\n" ++ memoryInfo, ?_⟩
  rw [String.append_assoc, String.append_assoc]

/-- C6 witness: the theorem applied to a concrete blocked navigation (the
solver of `emuOk` answers status `blocked` with no path), matching scenario
3 of the spec. -/
theorem c6_witness :
    emuOk.findPath ((lookupField [] "row").getD .none) ((lookupField [] "col").getD .none)
      = ("blocked", []) ∧
    emuOk.getStateFromMemory = .ok "STATE" ∧
    emuOk.getCollisionMap = .ok "MAP" ∧
    (OpenAIAgent.processToolCall emuOk pilId ⟨"navigate_to", .ok (.dict [])⟩
      = (.ok ("Navigation result: " ++ ("Navigation failed: " ++ "blocked")
              ++ "\n\nGame state after navigation:\n" ++ "STATE"),
         [.evFindPath ((lookupField [] "row").getD .none)
            ((lookupField [] "col").getD .none),
          .evGetScreenshot, .evGetStateFromMemory, .evGetCollisionMap]) ∧
    (OpenAIAgent.processToolCall emuOk pilId ⟨"navigate_to", .ok (.dict [])⟩).snd.all
      (fun ev => !ev.isMutation) = true ∧
    ∃ pre post,
      ("Navigation result: " ++ ("Navigation failed: " ++ "blocked")
        ++ "\n\nGame state after navigation:\n" ++ "STATE")
      = pre ++ ("Navigation failed: " ++ "blocked") ++ post) :=
  ⟨rfl, rfl, rfl, c6_navigation_failure emuOk pilId [] "blocked" "STATE" "MAP" rfl rfl rfl⟩

/-- C10 (implicit): for every `press_buttons` tool call, if the emulator
facade press operation or any of the subsequent state reads raises, the
exception is caught by the branch `except Exception` handler (lines
176-178): `_process_tool_call` returns the report
`Error processing button press: <str(e)>` instead of propagating.  The
dispatcher neither receives nor returns the transcript (see the type of
`OpenAIAgent.processToolCall` and the discarding `dispatchAll`), so the
transcript is unchanged by construction. -/
theorem c10_press_error_recovered (emu : Emulator) (pil : PILOracle) (tc : ToolCall)
    (buttons wait : PyValue) (e : String)
    (hname : tc.name = "press_buttons")
    (hb : pyGet (resolvedArguments tc.argumentsJson) "buttons" (.list []) = .ok buttons)
    (hw : pyGet (resolvedArguments tc.argumentsJson) "wait" (.bool true) = .ok wait)
    (herr : pressFirstError emu buttons wait = Option.some e) :
    (OpenAIAgent.processToolCall emu pil tc).fst
      = .ok ("Error processing button press: " ++ e) := by
  obtain ⟨name, aj⟩ := tc
  cases hname
  rw [processToolCall_press emu pil aj buttons wait hb hw]
  exact pressButtonsBranch_error emu buttons wait e herr

/-- C10 witness: the theorem applied to a concrete emulator whose
`press_buttons` raises `boom`. -/
theorem c10_witness :
    (ToolCall.mk "press_buttons" (.ok (.dict []))).name = "press_buttons" ∧
    pyGet (resolvedArguments (ToolCall.mk "press_buttons" (.ok (.dict []))).argumentsJson)
      "buttons" (.list []) = .ok (.list []) ∧
    pyGet (resolvedArguments (ToolCall.mk "press_buttons" (.ok (.dict []))).argumentsJson)
      "wait" (.bool true) = .ok (.bool true) ∧
    pressFirstError emuPressFail (.list []) (.bool true) = Option.some "boom" ∧
    (OpenAIAgent.processToolCall emuPressFail pilId ⟨"press_buttons", .ok (.dict [])⟩).fst
      = .ok ("Error processing button press: " ++ "boom") :=
  ⟨rfl, rfl, rfl, rfl,
   c10_press_error_recovered emuPressFail pilId ⟨"press_buttons", .ok (.dict [])⟩
     (.list []) (.bool true) "boom" rfl rfl rfl rfl⟩

/-- C9: `get_screenshot_base64` is deterministic: encoding equal frames with
equal upscale factors yields byte-identical encoded output.  The PIL resize
and PNG save operations are embedded as pure functions of one `PILOracle`
(PIL is deterministic, and PNG save of the same image writes the same
bytes), and the base64 step is implemented concretely, so two invocations
with the same inputs agree. -/
theorem c9_encoding_deterministic (pil : PILOracle) (s1 s2 : Image) (u1 u2 : Nat)
    (hs : s1 = s2) (hu : u1 = u2) :
    get_screenshot_base64 pil s1 u1 = get_screenshot_base64 pil s2 u2 := by
  rw [hs, hu]

/-- C9 witness: the theorem applied to a concrete frame and upscale 2. -/
theorem c9_witness :
    (Image.mk 2 2 [1, 2, 3]) = (Image.mk 2 2 [1, 2, 3]) ∧ (2 : Nat) = 2 ∧
    get_screenshot_base64 pilId (Image.mk 2 2 [1, 2, 3]) 2
      = get_screenshot_base64 pilId (Image.mk 2 2 [1, 2, 3]) 2 :=
  ⟨rfl, rfl, c9_encoding_deterministic pilId (Image.mk 2 2 [1, 2, 3])
    (Image.mk 2 2 [1, 2, 3]) 2 2 rfl rfl⟩

/-- C1 witness: with `max_history = 3` the appended history reaches the
threshold, compaction runs within the step, and the resulting transcript is
the single three-part summary turn. -/
theorem c1_witness :
    OpenAIAgent.runStep emuOk pilId (.ok svcHi) (.ok "sum") (initAgent 3)
      = .ok (⟨[OpenAIAgent.summaryTurn 3 "sum" "AQID"], true, 3⟩,
             trPlain ++ [StepPhase.compaction]) ∧
    (initAgent 3).maxHistory ≤ (initAgent 3).history.length + 2 ∧
    (StepPhase.compaction ∈ trPlain ++ [StepPhase.compaction] ∧
     ∃ summText, (Except.ok "sum" : Except String String) = .ok summText ∧
       (AgentState.mk [OpenAIAgent.summaryTurn 3 "sum" "AQID"] true 3).history
         = [OpenAIAgent.summaryTurn 3 summText
             (get_screenshot_base64 pilId emuOk.getScreenshot 2)] ∧
       (AgentState.mk [OpenAIAgent.summaryTurn 3 "sum" "AQID"] true 3).history.length = 1) :=
  ⟨rfl, by decide,
   c1_compaction_condenses_history emuOk pilId (.ok svcHi) (.ok "sum") (initAgent 3)
     ⟨[OpenAIAgent.summaryTurn 3 "sum" "AQID"], true, 3⟩
     (trPlain ++ [StepPhase.compaction]) rfl (by decide)⟩

/-- C2 witness: with `max_history = 30` a step appends exactly the user
observation turn and the assistant text turn. -/
theorem c2_witness :
    OpenAIAgent.runStep emuOk pilId (.ok svcHi) (.ok "sum") (initAgent 30)
      = .ok (⟨initialHistory ++ [obsTurnOk, ⟨"assistant", .str "hi"⟩], true, 30⟩, trPlain) ∧
    (initAgent 30).history.length + 2 < (initAgent 30).maxHistory ∧
    (∃ msg memoryInfo,
      (Except.ok svcHi : Except String ServiceMsg) = .ok msg ∧
      emuOk.getStateFromMemory = .ok memoryInfo ∧
      (AgentState.mk (initialHistory ++ [obsTurnOk, ⟨"assistant", .str "hi"⟩]) true 30).history
        = (initAgent 30).history
          ++ [⟨"user", .parts (OpenAIAgent.observationParts memoryInfo
                (get_screenshot_base64 pilId emuOk.getScreenshot 2))⟩,
              ⟨"assistant", .str (pyOrEmpty msg.content)⟩] ∧
      (AgentState.mk (initialHistory ++ [obsTurnOk, ⟨"assistant", .str "hi"⟩]) true 30).history.length
        = (initAgent 30).history.length + 2) :=
  ⟨rfl, by decide,
   c2_step_appends_two_turns emuOk pilId (.ok svcHi) (.ok "sum") (initAgent 30)
     ⟨initialHistory ++ [obsTurnOk, ⟨"assistant", .str "hi"⟩], true, 30⟩ trPlain
     rfl (by decide)⟩

/-- C7 witness: the amended phase-order theorem applied to a concrete step
carrying one tool call. -/
theorem c7_witness :
    OpenAIAgent.runStep emuOk pilId (.ok svcPress) (.ok "sum") (initAgent 30)
      = .ok (⟨initialHistory ++ [obsTurnOk, ⟨"assistant", .str "pressing a"⟩], true, 30⟩,
             trPlain ++ [StepPhase.toolDispatch "press_buttons"]) ∧
    (∃ msg rest, (Except.ok svcPress : Except String ServiceMsg) = .ok msg ∧
      trPlain ++ [StepPhase.toolDispatch "press_buttons"]
        = [StepPhase.observationCapture, StepPhase.serviceRequest,
           StepPhase.transcriptAppend]
          ++ msg.toolCalls.map (fun tc => StepPhase.toolDispatch tc.name)
          ++ rest ∧
      (rest = [] ∨ rest = [StepPhase.compaction])) :=
  ⟨rfl,
   c7_step_phase_order emuOk pilId (.ok svcPress) (.ok "sum") (initAgent 30)
     ⟨initialHistory ++ [obsTurnOk, ⟨"assistant", .str "pressing a"⟩], true, 30⟩
     (trPlain ++ [StepPhase.toolDispatch "press_buttons"]) rfl⟩

theorem runStep_preserves (emu : Emulator) (pil : PILOracle)
    (svc : Except String ServiceMsg) (summ : Except String String)
    (st st' : AgentState) (tr : List StepPhase)
    (h : OpenAIAgent.runStep emu pil svc summ st = .ok (st', tr)) :
    st'.running = st.running ∧ st'.maxHistory = st.maxHistory ∧
    (2 ≤ st.maxHistory → st'.history.length < st.maxHistory) := by
  obtain ⟨msg, memoryInfo, _, _, _, hcase⟩ :=
    runStep_cases emu pil svc summ st st' tr h
  rcases hcase with ⟨hge, _, _, hst, _⟩ | ⟨hlt, hst, _⟩
  · subst hst
    exact ⟨rfl, rfl, fun h2 => by simp; omega⟩
  · subst hst
    refine ⟨rfl, rfl, fun _ => ?_⟩
    rw [show (AgentState.mk (OpenAIAgent.appendedHistory st memoryInfo
        (get_screenshot_base64 pil emu.getScreenshot 2) msg) st.running st.maxHistory).history
      = OpenAIAgent.appendedHistory st memoryInfo
        (get_screenshot_base64 pil emu.getScreenshot 2) msg from rfl]
    rw [appendedHistory_length]
    omega

theorem runLoop_not_running (emu : Emulator) (pil : PILOracle) (script : Nat → OpenAIAgent.StepInput)
    (numSteps fuel done : Nat) (st : AgentState) (h : st.running = false) :
    OpenAIAgent.runLoop emu pil script numSteps fuel done st
      = .ok ⟨st, done, true, [], false⟩ := by
  cases fuel with
  | zero => simp [OpenAIAgent.runLoop, h]
  | succ fuel => simp [OpenAIAgent.runLoop, h]

theorem runLoop_steps_le (emu : Emulator) (pil : PILOracle) (script : Nat → OpenAIAgent.StepInput)
    (numSteps : Nat) :
    ∀ fuel done st r, done ≤ numSteps →
      OpenAIAgent.runLoop emu pil script numSteps fuel done st = .ok r →
      r.stepsCompleted ≤ numSteps := by
  intro fuel
  induction fuel with
  | zero =>
    intro done st r hdone h
    simp only [OpenAIAgent.runLoop] at h
    cases h
    exact hdone
  | succ fuel ih =>
    intro done st r hdone h
    simp only [OpenAIAgent.runLoop] at h
    split at h
    · rename_i hcond
      split at h
      · split at h
        · cases h
        · rename_i r' hr'
          cases h
          exact ih done _ r' hdone hr'
      · split at h
        · cases h
        · split at h
          · cases h
          · rename_i r' hr'
            cases h
            exact ih done _ r' hdone hr'
      · split at h
        · cases h
        · rename_i p hstep
          split at h
          · cases h
          · rename_i r' hr'
            cases h
            exact ih (done + 1) _ r' hcond.2 hr'
    · cases h
      exact hdone

theorem runLoop_interrupted (emu : Emulator) (pil : PILOracle)
    (script : Nat → OpenAIAgent.StepInput) (numSteps : Nat) :
    ∀ fuel done st r,
      OpenAIAgent.runLoop emu pil script numSteps fuel done st = .ok r →
      r.interrupted = true →
      r.state.running = false ∧ r.emulatorStopped = true := by
  intro fuel
  induction fuel with
  | zero =>
    intro done st r h hint
    simp only [OpenAIAgent.runLoop] at h
    cases h
    simp at hint
  | succ fuel ih =>
    intro done st r h hint
    simp only [OpenAIAgent.runLoop] at h
    split at h
    · split at h
      · split at h
        · cases h
        · rename_i r' hr'
          rw [runLoop_not_running emu pil script numSteps fuel done _ rfl] at hr'
          cases hr'
          cases h
          exact ⟨rfl, rfl⟩
      · split at h
        · cases h
        · split at h
          · cases h
          · rename_i r' hr'
            rw [runLoop_not_running emu pil script numSteps fuel done _ rfl] at hr'
            cases hr'
            cases h
            exact ⟨rfl, rfl⟩
      · split at h
        · cases h
        · rename_i p hstep
          split at h
          · cases h
          · rename_i r' hr'
            cases h
            exact ih (done + 1) _ r' hr' hint
    · cases h
      simp at hint

theorem runLoop_invariant (emu : Emulator) (pil : PILOracle)
    (script : Nat → OpenAIAgent.StepInput) (numSteps : Nat) :
    ∀ fuel done st r, 2 ≤ st.maxHistory →
      (st.running = true → st.history.length < st.maxHistory) →
      OpenAIAgent.runLoop emu pil script numSteps fuel done st = .ok r →
      (∀ l ∈ r.startLengths, l < st.maxHistory) ∧
      (r.state.running = true → r.state.history.length < st.maxHistory) := by
  intro fuel
  induction fuel with
  | zero =>
    intro done st r h2 hinv h
    simp only [OpenAIAgent.runLoop] at h
    cases h
    exact ⟨by simp, hinv⟩
  | succ fuel ih =>
    intro done st r h2 hinv h
    simp only [OpenAIAgent.runLoop] at h
    split at h
    · rename_i hcond
      have hrun : st.running = true := hcond.1
      split at h
      · split at h
        · cases h
        · rename_i r' hr'
          cases h
          have hrec := ih done ⟨st.history, false, st.maxHistory⟩ r' h2
            (fun hr => by simp at hr) hr'
          refine ⟨?_, hrec.2⟩
          intro l hl
          rcases List.mem_cons.mp hl with rfl | hl
          · exact hinv hrun
          · exact hrec.1 l hl
      · rename_i svcMsg hscript
        split at h
        · cases h
        · rename_i userTurn hobs
          split at h
          · cases h
          · rename_i r' hr'
            cases h
            have hrec := ih done
              ⟨st.history ++ [userTurn, OpenAIAgent.assistantTurn svcMsg], false,
               st.maxHistory⟩ r' h2 (fun hr => by simp at hr) hr'
            refine ⟨?_, hrec.2⟩
            intro l hl
            rcases List.mem_cons.mp hl with rfl | hl
            · exact hinv hrun
            · exact hrec.1 l hl
      · rename_i svcE summE hscript
        split at h
        · cases h
        · rename_i st' trp hstep
          split at h
          · cases h
          · rename_i r' hr'
            cases h
            obtain ⟨hpr, hpm, hpl⟩ :=
              runStep_preserves emu pil svcE summE st st' trp hstep
            have h2' : 2 ≤ st'.maxHistory := by rw [hpm]; exact h2
            have hinv' : st'.running = true → st'.history.length < st'.maxHistory := by
              intro _
              rw [hpm]
              exact hpl h2
            have hrec := ih (done + 1) st' r' h2' hinv' hr'
            rw [hpm] at hrec
            refine ⟨?_, hrec.2⟩
            intro l hl
            rcases List.mem_cons.mp hl with rfl | hl
            · exact hinv hrun
            · exact hrec.1 l hl
    · cases h
      exact ⟨by simp, hinv⟩

theorem compaction_not_mem_stepTrace (msg : ServiceMsg) :
    StepPhase.compaction ∉ OpenAIAgent.stepTrace msg := by
  intro hmem
  simp only [OpenAIAgent.stepTrace, List.mem_append, List.mem_map] at hmem
  rcases hmem with hmem | ⟨tc, _, htc⟩
  · simp at hmem
  · cases htc

/-- C3: the transcript-length invariant.  At agent construction the history
has length 1, which is below `max_history` whenever `max_history ≥ 2` (the
CLI default is 30).  For any invocation of `OpenAIAgent.run` from a state
satisfying the invariant, the history length observed at the start of every
loop iteration that is entered is strictly below `max_history`, and the
final state satisfies the invariant again whenever it can still run;
the length can reach `max_history` only transiently inside a step, and a
step that compacts ends with history length exactly 1. -/
theorem c3_history_length_invariant (emu : Emulator) (pil : PILOracle)
    (script : Nat → OpenAIAgent.StepInput) (numSteps : Nat) (st : AgentState)
    (r : OpenAIAgent.RunResult)
    (h2 : 2 ≤ st.maxHistory)
    (hinv : st.running = true → st.history.length < st.maxHistory)
    (h : OpenAIAgent.run emu pil script numSteps st = .ok r) :
    (∀ l ∈ r.startLengths, l < st.maxHistory) ∧
    (r.state.running = true → r.state.history.length < st.maxHistory) ∧
    (∀ m, 2 ≤ m → (initAgent m).history.length < m) ∧
    (∀ svc summ st1 st1' tr, 2 ≤ st1.maxHistory →
      OpenAIAgent.runStep emu pil svc summ st1 = .ok (st1', tr) →
      StepPhase.compaction ∈ tr → st1'.history.length = 1) := by
  obtain ⟨hstarts, hfinal⟩ :=
    runLoop_invariant emu pil script numSteps (numSteps + 1) 0 st r h2 hinv h
  refine ⟨hstarts, hfinal, ?_, ?_⟩
  · intro m hm
    simp only [initAgent, initialHistory, List.length_singleton]
    omega
  · intro svc summ st1 st1' tr h2' hstep hmem
    obtain ⟨msg, memoryInfo, _, _, _, hcase⟩ :=
      runStep_cases emu pil svc summ st1 st1' tr hstep
    rcases hcase with ⟨_, _, _, hst, _⟩ | ⟨_, _, htr⟩
    · subst hst
      simp
    · subst htr
      exact absurd hmem (compaction_not_mem_stepTrace msg)

/-- C8: if an operator cancellation signal (`KeyboardInterrupt`) is received
during a step of `OpenAIAgent.run`, the `running` flag is cleared, the
emulator facade is stopped (lines 291-299), and `run` returns the count of
steps completed so far, an integer between 0 and `num_steps` inclusive. -/
theorem c8_interrupt_stops_run (emu : Emulator) (pil : PILOracle)
    (script : Nat → OpenAIAgent.StepInput) (numSteps : Nat) (st : AgentState)
    (r : OpenAIAgent.RunResult)
    (h : OpenAIAgent.run emu pil script numSteps st = .ok r)
    (hint : r.interrupted = true) :
    r.state.running = false ∧ r.emulatorStopped = true ∧
    0 ≤ r.stepsCompleted ∧ r.stepsCompleted ≤ numSteps := by
  obtain ⟨h1, hstop⟩ :=
    runLoop_interrupted emu pil script numSteps (numSteps + 1) 0 st r h hint
  exact ⟨h1, hstop, Nat.zero_le _,
    runLoop_steps_le emu pil script numSteps (numSteps + 1) 0 st r (Nat.zero_le _) h⟩

/-- C3 witness: one normal step from the freshly constructed agent with
`max_history = 30`; the recorded start length 1 is below the threshold. -/
theorem c3_witness :
    2 ≤ (initAgent 30).maxHistory ∧
    OpenAIAgent.run emuOk pilId
        (fun _ => OpenAIAgent.StepInput.normal (.ok svcHi) (.ok "sum")) 1 (initAgent 30)
      = .ok ⟨⟨initialHistory ++ [obsTurnOk, ⟨"assistant", .str "hi"⟩], true, 30⟩,
             1, false, [1], false⟩ ∧
    1 < (initAgent 30).maxHistory :=
  ⟨by decide, rfl,
   (c3_history_length_invariant emuOk pilId
      (fun _ => OpenAIAgent.StepInput.normal (.ok svcHi) (.ok "sum")) 1 (initAgent 30)
      ⟨⟨initialHistory ++ [obsTurnOk, ⟨"assistant", .str "hi"⟩], true, 30⟩,
       1, false, [1], false⟩
      (by decide) (fun _ => by decide) rfl).1 1 (by simp)⟩

/-- C8 witness: a run that is interrupted during its first step ends with
`running` cleared, the emulator stopped, and 0 of the 3 requested steps
completed. -/
theorem c8_witness :
    OpenAIAgent.run emuOk pilId (fun _ => OpenAIAgent.StepInput.interruptEarly) 3
        (initAgent 30)
      = .ok ⟨⟨initialHistory, false, 30⟩, 0, true, [1], true⟩ ∧
    (OpenAIAgent.RunResult.mk ⟨initialHistory, false, 30⟩ 0 true [1] true).interrupted
      = true ∧
    ((OpenAIAgent.RunResult.mk ⟨initialHistory, false, 30⟩ 0 true [1] true).state.running
        = false ∧
     (OpenAIAgent.RunResult.mk ⟨initialHistory, false, 30⟩ 0 true [1] true).emulatorStopped
        = true ∧
     0 ≤ (OpenAIAgent.RunResult.mk ⟨initialHistory, false, 30⟩ 0 true [1] true).stepsCompleted ∧
     (OpenAIAgent.RunResult.mk ⟨initialHistory, false, 30⟩ 0 true [1] true).stepsCompleted ≤ 3) :=
  ⟨rfl, rfl,
   c8_interrupt_stops_run emuOk pilId (fun _ => OpenAIAgent.StepInput.interruptEarly) 3
     (initAgent 30) ⟨⟨initialHistory, false, 30⟩, 0, true, [1], true⟩ rfl rfl⟩
